import Mathlib

/-!
Shallow embedding of the Limitless Obsidian plugin (`src/main.ts`): the local
vault store, the lifelog date-walk sync, the lifelog and chat markdown
renderers, the chat pagination loop, and the rate-limited request/retry
engine.  Each definition is translated from the corresponding function of
`src/main.ts`; theorems at the end settle the claims of the specification.
-/

set_option autoImplicit false

namespace Limitless

/-! ### Local store

The Obsidian vault adapter (`this.app.vault.adapter`) is modelled as an
association list from file paths to file contents; `write` prepends (overwrite
semantics) and `read` finds the most recent entry. -/

/-- The local file store: a list of (path, content) pairs, most recent first. -/
def Store := List (String × String)

/-- Model of `vault.adapter.read`: `none` when the file does not exist. -/
def readStore (s : Store) (p : String) : Option String :=
  (s.find? (fun e => e.1 == p)).map (fun e => e.2)

/-- Model of `vault.adapter.write`: overwrite by prepending. -/
def writeStore (s : Store) (p c : String) : Store :=
  (p, c) :: s

/-- The empty store. -/
def emptyStore : Store := []

theorem readStore_writeStore (s : Store) (p c q : String) :
    readStore (writeStore s p c) q = if q = p then some c else readStore s q := by
  by_cases h : q = p
  · simp [readStore, writeStore, List.find?, h, beq_iff_eq, eq_comm]
  · simp [readStore, writeStore, List.find?, h, beq_iff_eq, eq_comm,
      beq_eq_false_iff_ne.mpr (Ne.symm h)]

/-! ### Calendar dates

`syncLifelogs` walks `Date` objects one calendar day at a time
(`currentDate.setDate(currentDate.getDate() + 1)`).  A JavaScript `Date`
holding a midnight instant is modelled by its civil (year, month, day)
triple; chronological order of valid triples is lexicographic order. -/

/-- A calendar date as used by `syncLifelogs` (month and day are 1-based). -/
structure Date where
  y : Nat
  m : Nat
  d : Nat
  deriving DecidableEq

/-- Chronological comparison of civil dates (JS compares the underlying
timestamps; for valid dates that is lexicographic order on (y, m, d)). -/
def dateLeB (a b : Date) : Bool :=
  (a.y < b.y) || (a.y == b.y && ((a.m < b.m) || (a.m == b.m && a.d ≤ b.d)))

/-- Strict chronological comparison of civil dates. -/
def dateLtB (a b : Date) : Bool :=
  dateLeB a b && !(a == b)

/-- Gregorian leap-year test, as implemented by the JS `Date` rollover. -/
def isLeap (y : Nat) : Bool :=
  y % 4 == 0 && (y % 100 != 0 || y % 400 == 0)

/-- Number of days of a month in the Gregorian calendar. -/
def daysInMonth (y m : Nat) : Nat :=
  if m = 2 then (if isLeap y then 29 else 28)
  else if m = 4 ∨ m = 6 ∨ m = 9 ∨ m = 11 then 30
  else 31

/-- A (y, m, d) triple that denotes a real calendar date. -/
def validDate (dt : Date) : Bool :=
  1 ≤ dt.m && dt.m ≤ 12 && 1 ≤ dt.d && dt.d ≤ daysInMonth dt.y dt.m

/-- Model of `currentDate.setDate(currentDate.getDate() + 1)`: step to the
next calendar day, rolling over months and years. -/
def nextDay (dt : Date) : Date :=
  if dt.d < daysInMonth dt.y dt.m then ⟨dt.y, dt.m, dt.d + 1⟩
  else if dt.m < 12 then ⟨dt.y, dt.m + 1, 1⟩
  else ⟨dt.y + 1, 1, 1⟩

/-- A strictly `nextDay`-monotone measure on dates, used as recursion fuel
for the date walk. -/
def dateKey (dt : Date) : Nat :=
  dt.y * 372 + (dt.m - 1) * 31 + dt.d

/-- Fuelled driver of the `while (currentDate <= endDate)` loop of
`syncLifelogs`: the list of dates visited, in order. -/
def walkDatesAux : Nat → Date → Date → List Date
  | 0, _, _ => []
  | fuel + 1, cur, endD =>
    if dateLeB cur endD then cur :: walkDatesAux fuel (nextDay cur) endD else []

/-- The list of calendar dates visited by `syncLifelogs`, from the start date
to the end date inclusive. -/
def walkDates (startD endD : Date) : List Date :=
  walkDatesAux (dateKey endD + 1 - dateKey startD) startD endD

/-- Date part of `Date.prototype.toISOString` (`YYYY-MM-DD`), digit by digit. -/
def dateStr (dt : Date) : String :=
  String.mk [Nat.digitChar (dt.y / 1000 % 10), Nat.digitChar (dt.y / 100 % 10),
    Nat.digitChar (dt.y / 10 % 10), Nat.digitChar (dt.y % 10), '-',
    Nat.digitChar (dt.m / 10 % 10), Nat.digitChar (dt.m % 10), '-',
    Nat.digitChar (dt.d / 10 % 10), Nat.digitChar (dt.d % 10)]

/-- Model of the regex test `/^\d{4}-\d{2}-\d{2}$/.test(basename)`. -/
def isDateBasename (s : String) : Bool :=
  match s.data with
  | [a, b, c, d, e, f, g, h, i, j] =>
    a.isDigit && b.isDigit && c.isDigit && d.isDigit && e == '-' &&
    f.isDigit && g.isDigit && h == '-' && i.isDigit && j.isDigit
  | _ => false

/-- Numeric value of a decimal digit character. -/
def digitVal (c : Char) : Nat := c.toNat - 48

/-- Model of `new Date(basename)` on a `YYYY-MM-DD` basename: extract the
civil triple.  (Only applied to strings accepted by `isDateBasename`.) -/
def parseDate (s : String) : Date :=
  match s.data with
  | [a, b, c, d, _, f, g, _, i, j] =>
    ⟨digitVal a * 1000 + digitVal b * 100 + digitVal c * 10 + digitVal d,
     digitVal f * 10 + digitVal g,
     digitVal i * 10 + digitVal j⟩
  | _ => ⟨0, 0, 0⟩

/-! ### Lifelog renderer (`formatLifelogMarkdown`) -/

/-- A civil timestamp (the JS code parses timezone-less ISO strings as local
time and formats them back in local time, so the civil fields round-trip). -/
structure DateTime where
  y : Nat
  m : Nat
  d : Nat
  hr : Nat
  min : Nat
  sec : Nat
  deriving DecidableEq

/-- JavaScript string truthiness applied to an optional string:
`s || dflt` yields `dflt` for both `undefined` and the empty string. -/
def jsOr (o : Option String) (dflt : String) : String :=
  match o with
  | some s => if s = "" then dflt else s
  | none => dflt

/-- Two-digit zero padding (`String(n).padStart(2, '0')`, and the `'2-digit'`
fields of `toLocaleString`). -/
def pad2 (n : Nat) : String :=
  if n < 10 then "0" ++ Nat.repr n else Nat.repr n

/-- Hour in the 12-hour clock (`hour12: true`, `hour: 'numeric'`). -/
def hour12 (hr : Nat) : Nat :=
  if hr % 12 = 0 then 12 else hr % 12

/-- The AM/PM marker of the 12-hour clock. -/
def meridiem (hr : Nat) : String :=
  if hr < 12 then "AM" else "PM"

/-- Model of `dt.toLocaleString('en-US', {month: '2-digit', day: '2-digit',
year: '2-digit', hour: 'numeric', minute: '2-digit', hour12: true})`: the
en-US locale renders these options as `MM/DD/YY, h:mm AM` (date and time
joined by a comma and a space). -/
def lifelogTimestamp (t : DateTime) : String :=
  pad2 t.m ++ "/" ++ pad2 t.d ++ "/" ++ pad2 (t.y % 100) ++ ", " ++
    Nat.repr (hour12 t.hr) ++ ":" ++ pad2 t.min ++ " " ++ meridiem t.hr

/-- A lifelog content node, dispatched on `node.type` in the source; every
type other than `heading1`, `heading2` and `blockquote` is rendered verbatim
and is collapsed into the `other` variant. -/
inductive ContentNode where
  | heading1 (content : String)
  | heading2 (content : String)
  | blockquote (content : String) (speakerName : Option String)
      (startTime : Option DateTime)
  | other (content : String)
  deriving DecidableEq

/-- One lifelog record, with the fields read by `formatLifelogMarkdown`. -/
structure Lifelog where
  markdown : Option String
  title : Option String
  contents : Option (List ContentNode)
  deriving DecidableEq

/-- The loop state of the node walk in `formatLifelogMarkdown`: the emitted
blocks, the open section title and the buffered section lines. -/
structure RenderState where
  content : List String
  currentSection : String
  sectionMessages : List String
  deriving DecidableEq

/-- The `- speaker (timestamp): content` line built for a blockquote node. -/
def blockquoteLine (c : String) (speakerName : Option String)
    (startTime : Option DateTime) : String :=
  let speaker := jsOr speakerName "Speaker"
  let timestamp :=
    match startTime with
    | some t => "(" ++ lifelogTimestamp t ++ ")"
    | none => ""
  "- " ++ speaker ++ " " ++ timestamp ++ ": " ++ c

/-- One iteration of the `for (const node of lifelog.contents)` loop of
`formatLifelogMarkdown`. -/
def renderNode (st : RenderState) : ContentNode → RenderState
  | .heading2 t =>
    { content :=
        if st.currentSection ≠ "" ∧ st.sectionMessages.length > 0 then
          st.content ++ ["## " ++ st.currentSection ++ "\n"] ++
            st.sectionMessages ++ [""]
        else st.content,
      currentSection := t,
      sectionMessages := [] }
  | .blockquote c speakerName startTime =>
    let message := blockquoteLine c speakerName startTime
    if st.currentSection ≠ "" then
      { st with sectionMessages := st.sectionMessages ++ [message] }
    else
      { st with content := st.content ++ [message] }
  | .heading1 _ => st
  | .other c => { st with content := st.content ++ [c] }

/-- The flush of a still-open section after the node loop of
`formatLifelogMarkdown` (no trailing blank element, unlike the in-loop
flush). -/
def finalizeRender (st : RenderState) : List String :=
  if st.currentSection ≠ "" ∧ st.sectionMessages.length > 0 then
    st.content ++ ["## " ++ st.currentSection ++ "\n"] ++ st.sectionMessages
  else st.content

/-- Model of `formatLifelogMarkdown`. -/
def formatLifelogMarkdown (l : Lifelog) : String :=
  let fromNodes :=
    let initContent :=
      match l.title with
      | some t => if t = "" then [] else ["# " ++ t ++ "\n"]
      | none => []
    let nodes := l.contents.getD []
    String.intercalate "\n\n"
      (finalizeRender (nodes.foldl renderNode ⟨initContent, "", []⟩))
  match l.markdown with
  | some md => if md = "" then fromNodes else md.replace "\n\n" "\n"
  | none => fromNodes

/-! ### Lifelog sync (`syncLifelogs`, `getLastSyncedDate`) -/

/-- Model of `getLastSyncedDate`: among the basenames of the `.md` files
under the lifelog folder, keep those matching `^\d{4}-\d{2}-\d{2}$`, parse
them as dates, and return the most recent one (the JS sorts by timestamp
descending and takes the head). -/
def getLastSyncedDate (basenames : List String) : Option Date :=
  ((basenames.filter isDateBasename).map parseDate).foldl
    (fun acc d =>
      match acc with
      | none => some d
      | some m => some (if dateLeB m d then d else m))
    none

/-- The start date of the lifelog walk: the last synced date if any file was
found, otherwise the configured default start date. -/
def lifelogStartDate (basenames : List String) (defaultStart : Date) : Date :=
  (getLastSyncedDate basenames).getD defaultStart

/-- The list of dates passed to `api.getLifelogs` by one `syncLifelogs`
invocation. -/
def lifelogFetchDates (basenames : List String) (defaultStart endD : Date) :
    List Date :=
  walkDates (lifelogStartDate basenames defaultStart) endD

/-- The target path `{folder}/{date}.md` of one lifelog date. -/
def lifelogFilePath (folder : String) (dt : Date) : String :=
  folder ++ "/" ++ dateStr dt ++ ".md"

/-- One date step of `syncLifelogs`: fetch the date's lifelogs and, when the
list is non-empty, render them, join the documents with a blank line, and
write `{folder}/{date}.md` unconditionally; the second component logs the
performed writes. -/
def lifelogStep (fetch : Date → List Lifelog) (folder : String)
    (acc : Store × List (String × String)) (dt : Date) :
    Store × List (String × String) :=
  if (fetch dt).length > 0 then
    (writeStore acc.1 (lifelogFilePath folder dt)
      (String.intercalate "\n\n" ((fetch dt).map formatLifelogMarkdown)),
     acc.2 ++ [(lifelogFilePath folder dt,
      String.intercalate "\n\n" ((fetch dt).map formatLifelogMarkdown))])
  else acc

/-- The date-walk body of `syncLifelogs`, given the service response for each
date: threads the store and records the performed writes. -/
def syncLifelogsRun (fetch : Date → List Lifelog) (folder : String)
    (startD endD : Date) (store : Store) : Store × List (String × String) :=
  (walkDates startD endD).foldl (lifelogStep fetch folder) (store, [])

/-! ### Chat data model and renderer (`formatChatMarkdown`) -/

/-- A tool invocation attached to a chat message; `args` holds the compact
JSON text that `JSON.stringify(toolCall.args)` produces. -/
structure ToolCall where
  id : String
  toolName : String
  args : String
  deriving DecidableEq

/-- A cross-referenced entry of a tool result. -/
structure EntryRef where
  title : String
  id : String
  deriving DecidableEq

/-- A tool result attached to a chat message. -/
structure ToolResult where
  isError : Bool
  toolCallId : String
  toolName : String
  entriesReturned : Option (List EntryRef)
  deriving DecidableEq

/-- One chat message (`user.role` and `user.name` are inlined). -/
structure ChatMessage where
  id : String
  text : Option String
  toolCalls : Option (List ToolCall)
  toolResults : Option (List ToolResult)
  createdAt : DateTime
  role : String
  userName : Option String
  deriving DecidableEq

/-- One chat conversation record. -/
structure Chat where
  id : String
  summary : Option String
  createdAt : DateTime
  startedAt : DateTime
  messages : List ChatMessage
  visibility : String
  deriving DecidableEq

/-- Model of `dt.toLocaleString()` under the default en-US locale:
`M/D/YYYY, h:mm:ss AM`. -/
def jsLocaleString (t : DateTime) : String :=
  Nat.repr t.m ++ "/" ++ Nat.repr t.d ++ "/" ++ Nat.repr t.y ++ ", " ++
    Nat.repr (hour12 t.hr) ++ ":" ++ pad2 t.min ++ ":" ++ pad2 t.sec ++ " " ++
    meridiem t.hr

/-- Model of `formatRole`: capitalize the first character. -/
def formatRole (role : String) : String :=
  match role.data with
  | [] => ""
  | c :: rest => String.mk (c.toUpper :: rest)

/-- Characters replaced by `_` in `sanitizeFilename`. -/
def forbiddenChar (c : Char) : Bool :=
  c == '<' || c == '>' || c == ':' || c == '"' || c == '/' || c == '\\' ||
    c == '|' || c == '?' || c == '*'

/-- Model of `sanitizeFilename`: replace forbidden characters by `_` and
truncate to 100 characters. -/
def sanitizeFilename (name : String) : String :=
  String.mk (((name.data.map (fun c => if forbiddenChar c then '_' else c)).take 100))

/-- The chat file-layout setting (`chatFileFormat`). -/
inductive ChatFileFormat where
  | perChat
  | daily
  | monthly
  deriving DecidableEq

/-- The calendar date of a timestamp. -/
def DateTime.toDate (t : DateTime) : Date := ⟨t.y, t.m, t.d⟩

/-- Model of `getChatFilePath`. -/
def getChatFilePath (fmt : ChatFileFormat) (folder : String) (chat : Chat) :
    String :=
  match fmt with
  | .perChat =>
    let safeTitle := sanitizeFilename (jsOr chat.summary ("Chat " ++ chat.id))
    folder ++ "/" ++ safeTitle ++ " - " ++ (chat.id.take 8) ++ ".md"
  | .daily =>
    folder ++ "/" ++ dateStr chat.createdAt.toDate ++ " - Chats.md"
  | .monthly =>
    folder ++ "/" ++ Nat.repr chat.createdAt.y ++ "-" ++ pad2 chat.createdAt.m ++
      " - Chats.md"

/-- The blocks emitted for one chat message by `formatChatMarkdown`. -/
def formatChatMessage (message : ChatMessage) : List String :=
  (["### " ++ formatRole message.role ++ " " ++ (message.userName.getD ""),
    "*" ++ jsLocaleString message.createdAt ++ "*", ""] ++
   (match message.text with
    | some t => if t = "" then [] else [t, ""]
    | none => []) ++
   (match message.toolCalls with
    | some calls =>
      if calls.length > 0 then
        ["**Tool Calls:**"] ++
          calls.map (fun tc => "- " ++ tc.toolName ++ ": `" ++ tc.args ++ "`") ++
          [""]
      else []
    | none => []) ++
   (match message.toolResults with
    | some results =>
      if results.length > 0 then
        ["**Tool Results:**"] ++
          (results.map (fun r =>
            ["- " ++ r.toolName ++ ": " ++ (if r.isError then "Error" else "Success")] ++
              (match r.entriesReturned with
               | some entries =>
                 entries.map (fun e => "  - [[" ++ e.title ++ "]] (" ++ e.id ++ ")")
               | none => []))).flatten ++
          [""]
      else []
    | none => []) ++
   ["---", ""])

/-- Model of `formatChatMarkdown`. -/
def formatChatMarkdown (chat : Chat) : String :=
  let header :=
    ["# " ++ jsOr chat.summary "Chat Conversation",
     "**Chat ID:** " ++ chat.id,
     "**Created:** " ++ jsLocaleString chat.createdAt,
     "**Started:** " ++ jsLocaleString chat.startedAt,
     "**Visibility:** " ++ chat.visibility,
     ""]
  let body :=
    if chat.messages.length > 0 then
      ["## Conversation", ""] ++ (chat.messages.map formatChatMessage).flatten
    else []
  String.intercalate "\n" (header ++ body)

/-! ### Chat sync (`syncChats`, `processChatFile`) -/

/-- One page of the `/v1/chats` response, as consumed by the `do`/`while`
loop of `syncChats`: the page's chats and the next-page cursor. -/
structure ChatPage where
  chats : List Chat
  nextCursor : Option String
  deriving DecidableEq

/-- The mutable state of one `syncChats` invocation: the store, the
`processedChats` counter, and (instrumentation) the number of file writes
performed. -/
structure ChatSyncState where
  store : Store
  processed : Nat
  writes : Nat

/-- Model of `processChatFile`, including its internal `try`/`catch`: any
render/read/write failure (the `fail` oracle) is swallowed, leaving the store
unchanged.  Otherwise the file is written only when the rendered content
differs from the stored content; the returned flag records whether a write
was performed. -/
def processChatFile (fail : Chat → Bool) (fmt : ChatFileFormat)
    (folder : String) (store : Store) (chat : Chat) : Store × Bool :=
  if fail chat then (store, false)
  else
    match readStore store (getChatFilePath fmt folder chat) with
    | some existing =>
      if existing = formatChatMarkdown chat then (store, false)
      else (writeStore store (getChatFilePath fmt folder chat)
        (formatChatMarkdown chat), true)
    | none => (writeStore store (getChatFilePath fmt folder chat)
        (formatChatMarkdown chat), true)

/-- The per-chat step of the `for (const chat of result.chats)` loop:
process the file, then increment `processedChats` unconditionally. -/
def chatStep (fail : Chat → Bool) (fmt : ChatFileFormat) (folder : String)
    (st : ChatSyncState) (chat : Chat) : ChatSyncState :=
  let r := processChatFile fail fmt folder st.store chat
  ⟨r.1, st.processed + 1, st.writes + (if r.2 then 1 else 0)⟩

/-- The running-total cap of the loop condition
`processedChats < (this.settings.maxChatsPerSync || 200)`. -/
def chatCap (maxChats : Nat) : Nat :=
  if maxChats = 0 then 200 else maxChats

/-- The per-request page size
`Math.min(this.settings.maxChatsPerSync || 50, 100)`. -/
def chatPageLimit (maxChats : Nat) : Nat :=
  min (if maxChats = 0 then 50 else maxChats) 100

/-- The `do`/`while` pagination loop of `syncChats`, driven by the sequence
of pages the service returns (an exhausted trace stands for a service that
returns an empty page with no cursor). -/
def syncChatsGo (fail : Chat → Bool) (fmt : ChatFileFormat) (folder : String)
    (maxChats : Nat) : List ChatPage → ChatSyncState → ChatSyncState
  | [], st => st
  | p :: rest, st =>
    let st1 := p.chats.foldl (chatStep fail fmt folder) st
    if p.nextCursor.isSome && st1.processed < chatCap maxChats then
      syncChatsGo fail fmt folder maxChats rest st1
    else st1

/-- Model of one `syncChats` invocation (folder already ensured, sync
enabled, API key present). -/
def syncChats (fail : Chat → Bool) (fmt : ChatFileFormat) (folder : String)
    (maxChats : Nat) (pages : List ChatPage) (store : Store) : ChatSyncState :=
  syncChatsGo fail fmt folder maxChats pages ⟨store, 0, 0⟩

/-- The flat list of chats handed to `processChatFile` during one
`syncChats` invocation (mirrors the loop's control flow, which is
independent of the store and of per-chat failures). -/
def handedChats (maxChats : Nat) : List ChatPage → Nat → List Chat
  | [], _ => []
  | p :: rest, n =>
    p.chats ++
      (if p.nextCursor.isSome && (n + p.chats.length) < chatCap maxChats then
        handedChats maxChats rest (n + p.chats.length)
      else [])

/-- Clamping to a closed interval, as the specification's
`clamp(maxChatsPerSync, 1, 200)`. -/
def clamp (x lo hi : Nat) : Nat := max lo (min x hi)

/-! ### Request engine (`makeRequest`) -/

/-- The outcome of one `requestUrl` attempt, as observed by the `try` block
of `makeRequest`: either a response whose body parsed as JSON (`success
true`), a response with no JSON body (`success false`, which raises the
`Invalid response format` error), or a thrown error carrying an optional
HTTP status and an optional `retry-after` header. -/
inductive Outcome where
  | success (validJson : Bool)
  | failure (status : Option Nat) (retryAfter : Option String)
  deriving DecidableEq

/-- The error surfaced to `makeRequest`'s caller. -/
inductive ReqError where
  | httpError (status : Option Nat)
  | invalidFormat
  deriving DecidableEq

/-- Model of `parseInt(s, 10)`: optional leading whitespace, an optional
sign, then at least one decimal digit; trailing characters are ignored and
`none` stands for `NaN`. -/
def jsParseInt (s : String) : Option Int :=
  let cs := s.data.dropWhile (fun c =>
    c == ' ' || c == '\t' || c == '\n' || c == '\r')
  let signed : Bool × List Char :=
    match cs with
    | '-' :: rest => (true, rest)
    | '+' :: rest => (false, rest)
    | _ => (false, cs)
  let digits := signed.2.takeWhile Char.isDigit
  if digits.isEmpty then none
  else
    let v : Int := Int.ofNat (digits.foldl (fun acc c => acc * 10 + digitVal c) 0)
    some (if signed.1 then -v else v)

/-- The retry delay computed for a 429 response: exponential backoff
`retryDelay * 2^retries` by default, overridden by the `retry-after` header
when present — parsed first as a count of seconds, otherwise handed to the
`dateDelay` oracle (which stands for
`new Date(retryAfter).getTime() - now.getTime()`, a computation over the
ambient clock that is not modelled further). -/
def computeDelay (dateDelay : String → Int) (retries : Nat)
    (retryAfter : Option String) : Int :=
  let base : Int := 1000 * 2 ^ retries
  match retryAfter with
  | none => base
  | some s =>
    if s = "" then base
    else
      match jsParseInt s with
      | some n => n * 1000
      | none => dateDelay s

/-- The retry loop of `makeRequest`, driven by the sequence of attempt
outcomes: returns the final result together with the list of backoff delays
waited, or `none` if the trace is shorter than the number of attempts the
loop makes. -/
def runRequest (dateDelay : String → Int) :
    List Outcome → Nat → Option (Except ReqError Unit × List Int)
  | [], _ => none
  | o :: rest, retries =>
    match o with
    | .success true => some (.ok (), [])
    | .success false => some (.error .invalidFormat, [])
    | .failure st ra =>
      if st = some 429 ∧ retries < 5 then
        (runRequest dateDelay rest (retries + 1)).map
          (fun r => (r.1, computeDelay dateDelay retries ra :: r.2))
      else some (.error (.httpError st), [])

/-- Model of `makeRequest`: the retry loop entered with `retries = 0`. -/
def makeRequest (dateDelay : String → Int) (trace : List Outcome) :
    Option (Except ReqError Unit × List Int) :=
  runRequest dateDelay trace 0

/-- An attempt outcome on which the catch clause retries: a thrown error
with status 429. -/
def is429 (o : Outcome) : Bool :=
  match o with
  | .failure (some s) _ => s == 429
  | _ => false

/-- An attempt outcome that `makeRequest` never retries: a non-429 error
(network errors carry no status) or a response body that is not JSON. -/
def nonRetryable (o : Outcome) : Bool :=
  match o with
  | .success validJson => !validJson
  | .failure st _ => !(st == some 429)

/-- The error that a non-retryable outcome surfaces to the caller. -/
def failResult (o : Outcome) : ReqError :=
  match o with
  | .success _ => .invalidFormat
  | .failure st _ => .httpError st

/-- The `retry-after` header of an outcome, if any. -/
def raOf (o : Outcome) : Option String :=
  match o with
  | .failure _ ra => ra
  | .success _ => none

/-- The backoff delays produced by a prefix of retried 429 outcomes,
starting from a given retry counter. -/
def preDelays (dateDelay : String → Int) : Nat → List Outcome → List Int
  | _, [] => []
  | k, o :: rest => computeDelay dateDelay k (raOf o) :: preDelays dateDelay (k + 1) rest

/-! ### Substring checks, used to state "the output contains ..." claims -/

/-- Whether `needle` is a prefix of `hay`. -/
def listPrefixOf : List Char → List Char → Bool
  | [], _ => true
  | _ :: _, [] => false
  | a :: as, b :: bs => a == b && listPrefixOf as bs

/-- Whether `needle` occurs contiguously inside `hay`. -/
def listInfixOf : List Char → List Char → Bool
  | needle, [] => needle.isEmpty
  | needle, c :: rest => listPrefixOf needle (c :: rest) || listInfixOf needle rest

/-- Whether the string `needle` occurs inside the string `hay`. -/
def strContains (hay needle : String) : Bool :=
  listInfixOf needle.data hay.data

/-! ### Lemmas about the calendar-date walk -/

theorem dateLeB_refl (a : Date) : dateLeB a a = true := by
  simp [dateLeB]

theorem dateLeB_trans {a b c : Date} (h1 : dateLeB a b = true)
    (h2 : dateLeB b c = true) : dateLeB a c = true := by
  simp only [dateLeB, Bool.or_eq_true, Bool.and_eq_true, decide_eq_true_eq,
    beq_iff_eq] at h1 h2 ⊢
  omega

theorem dateLeB_y_le {a b : Date} (h : dateLeB a b = true) : a.y ≤ b.y := by
  simp only [dateLeB, Bool.or_eq_true, Bool.and_eq_true, decide_eq_true_eq,
    beq_iff_eq] at h
  omega

theorem daysInMonth_pos (y m : Nat) : 1 ≤ daysInMonth y m := by
  unfold daysInMonth
  split <;> [split <;> omega; split <;> omega]

theorem daysInMonth_le_31 (y m : Nat) : daysInMonth y m ≤ 31 := by
  unfold daysInMonth
  split <;> [split <;> omega; split <;> omega]

theorem dateLeB_nextDay (dt : Date) : dateLeB dt (nextDay dt) = true := by
  unfold nextDay
  split
  · simp [dateLeB]
  · split <;> simp [dateLeB]

theorem validDate_nextDay {dt : Date} (h : validDate dt = true) :
    validDate (nextDay dt) = true := by
  simp only [validDate, Bool.and_eq_true, decide_eq_true_eq] at h
  unfold nextDay
  split
  · rename_i hlt
    simp only [validDate, Bool.and_eq_true, decide_eq_true_eq]
    refine ⟨⟨⟨h.1.1.1, h.1.1.2⟩, by omega⟩, by omega⟩
  · split
    · rename_i hm
      have := daysInMonth_pos dt.y (dt.m + 1)
      simp only [validDate, Bool.and_eq_true, decide_eq_true_eq]
      exact ⟨⟨⟨by omega, by omega⟩, by omega⟩, this⟩
    · have : daysInMonth (dt.y + 1) 1 = 31 := by simp [daysInMonth]
      simp only [validDate, Bool.and_eq_true, decide_eq_true_eq, this]
      omega

theorem mem_walkDatesAux_ge : ∀ (fuel : Nat) (cur endD x : Date),
    x ∈ walkDatesAux fuel cur endD → dateLeB cur x = true := by
  intro fuel
  induction fuel with
  | zero => intro cur endD x h; simp [walkDatesAux] at h
  | succ n ih =>
    intro cur endD x h
    unfold walkDatesAux at h
    split at h
    · rcases List.mem_cons.mp h with h | h
      · subst h; exact dateLeB_refl x
      · exact dateLeB_trans (dateLeB_nextDay cur) (ih (nextDay cur) endD x h)
    · simp at h

theorem mem_walkDatesAux_le_end : ∀ (fuel : Nat) (cur endD x : Date),
    x ∈ walkDatesAux fuel cur endD → dateLeB x endD = true := by
  intro fuel
  induction fuel with
  | zero => intro cur endD x h; simp [walkDatesAux] at h
  | succ n ih =>
    intro cur endD x h
    unfold walkDatesAux at h
    split at h
    · rename_i hg
      rcases List.mem_cons.mp h with h | h
      · subst h; exact hg
      · exact ih (nextDay cur) endD x h
    · simp at h

theorem mem_walkDatesAux_valid : ∀ (fuel : Nat) (cur endD x : Date),
    validDate cur = true → x ∈ walkDatesAux fuel cur endD →
    validDate x = true := by
  intro fuel
  induction fuel with
  | zero => intro cur endD x _ h; simp [walkDatesAux] at h
  | succ n ih =>
    intro cur endD x hv h
    unfold walkDatesAux at h
    split at h
    · rcases List.mem_cons.mp h with h | h
      · subst h; exact hv
      · exact ih (nextDay cur) endD x (validDate_nextDay hv) h
    · simp at h

theorem dateKey_le_of_le {a b : Date} (hva : validDate a = true)
    (hvb : validDate b = true) (h : dateLeB a b = true) :
    dateKey a ≤ dateKey b := by
  simp only [validDate, Bool.and_eq_true, decide_eq_true_eq] at hva hvb
  simp only [dateLeB, Bool.or_eq_true, Bool.and_eq_true, decide_eq_true_eq,
    beq_iff_eq] at h
  have h31a := daysInMonth_le_31 a.y a.m
  have h31b := daysInMonth_le_31 b.y b.m
  unfold dateKey
  omega

theorem self_mem_walkDates {startD endD : Date} (hva : validDate startD = true)
    (hvb : validDate endD = true) (h : dateLeB startD endD = true) :
    startD ∈ walkDates startD endD := by
  have hk := dateKey_le_of_le hva hvb h
  unfold walkDates
  have hn : dateKey endD + 1 - dateKey startD =
      (dateKey endD - dateKey startD) + 1 := by omega
  rw [hn]
  unfold walkDatesAux
  rw [if_pos h]
  exact List.mem_cons_self _ _

/-! ### Injectivity of the `YYYY-MM-DD` file name on real dates -/

theorem digitChar_inj : ∀ a : Nat, a < 10 → ∀ b : Nat, b < 10 →
    Nat.digitChar a = Nat.digitChar b → a = b := by decide

theorem dateStr_inj {a b : Date} (hay : a.y ≤ 9999) (ham : a.m ≤ 99)
    (had : a.d ≤ 99) (hby : b.y ≤ 9999) (hbm : b.m ≤ 99) (hbd : b.d ≤ 99)
    (h : dateStr a = dateStr b) : a = b := by
  have hd : (dateStr a).data = (dateStr b).data := by rw [h]
  simp only [dateStr, List.cons.injEq, and_true] at hd
  obtain ⟨e1, e2, e3, e4, _, e5, e6, _, e7, e8⟩ := hd
  have l : ∀ x : Nat, x % 10 < 10 := fun x => Nat.mod_lt _ (by norm_num)
  have q1 := digitChar_inj _ (l _) _ (l _) e1
  have q2 := digitChar_inj _ (l _) _ (l _) e2
  have q3 := digitChar_inj _ (l _) _ (l _) e3
  have q4 := digitChar_inj _ (l _) _ (l _) e4
  have q5 := digitChar_inj _ (l _) _ (l _) e5
  have q6 := digitChar_inj _ (l _) _ (l _) e6
  have q7 := digitChar_inj _ (l _) _ (l _) e7
  have q8 := digitChar_inj _ (l _) _ (l _) e8
  have hy : a.y = b.y := by omega
  have hm : a.m = b.m := by omega
  have hdd : a.d = b.d := by omega
  cases a; cases b
  simp_all

theorem string_eq_of_data {s t : String} (h : s.data = t.data) : s = t := by
  cases s; cases t; simp_all

theorem lifelogFilePath_inj {folder : String} {a b : Date} (hay : a.y ≤ 9999)
    (ham : a.m ≤ 99) (had : a.d ≤ 99) (hby : b.y ≤ 9999) (hbm : b.m ≤ 99)
    (hbd : b.d ≤ 99) (h : lifelogFilePath folder a = lifelogFilePath folder b) :
    a = b := by
  apply dateStr_inj hay ham had hby hbm hbd
  have hd : (lifelogFilePath folder a).data = (lifelogFilePath folder b).data := by
    rw [h]
  simp only [lifelogFilePath, String.data_append, List.append_assoc] at hd
  have h1 := List.append_cancel_left hd
  have h2 := List.append_cancel_left h1
  exact string_eq_of_data (List.append_cancel_right h2)

/-! ### Lemmas about the chat pagination loop -/

theorem foldl_chatStep_processed (fail : Chat → Bool) (fmt : ChatFileFormat)
    (folder : String) : ∀ (cs : List Chat) (st : ChatSyncState),
    (cs.foldl (chatStep fail fmt folder) st).processed = st.processed + cs.length := by
  intro cs
  induction cs with
  | nil => intro st; simp
  | cons c t ih =>
    intro st
    rw [List.foldl_cons, ih]
    simp [chatStep]
    omega

theorem syncChatsGo_eq_foldl (fail : Chat → Bool) (fmt : ChatFileFormat)
    (folder : String) (maxChats : Nat) : ∀ (pages : List ChatPage) (st : ChatSyncState),
    syncChatsGo fail fmt folder maxChats pages st =
      (handedChats maxChats pages st.processed).foldl (chatStep fail fmt folder) st := by
  intro pages
  induction pages with
  | nil => intro st; rfl
  | cons p rest ih =>
    intro st
    unfold syncChatsGo handedChats
    rw [List.foldl_append]
    have hc : (p.chats.foldl (chatStep fail fmt folder) st).processed =
        st.processed + p.chats.length := foldl_chatStep_processed fail fmt folder p.chats st
    by_cases hg : p.nextCursor.isSome ∧ st.processed + p.chats.length < chatCap maxChats
    · rw [if_pos (by simp [hc, hg.1, hg.2]), if_pos (by simp [hg.1, hg.2]),
        ih (p.chats.foldl (chatStep fail fmt folder) st), hc]
    · rw [if_neg ?_, if_neg ?_]
      · simp
      · intro hcon
        simp only [Bool.and_eq_true, decide_eq_true_eq] at hcon
        exact hg ⟨hcon.1, hcon.2⟩
      · intro hcon
        simp only [Bool.and_eq_true, decide_eq_true_eq, hc] at hcon
        exact hg ⟨hcon.1, hcon.2⟩

theorem syncChats_processed (fail : Chat → Bool) (fmt : ChatFileFormat)
    (folder : String) (maxChats : Nat) (pages : List ChatPage) (store : Store) :
    (syncChats fail fmt folder maxChats pages store).processed =
      (handedChats maxChats pages 0).length := by
  unfold syncChats
  rw [syncChatsGo_eq_foldl, foldl_chatStep_processed]
  simp

theorem chatCap_pos (maxChats : Nat) : 1 ≤ chatCap maxChats := by
  unfold chatCap; split <;> omega

theorem handedChats_length_lt (maxChats L : Nat) :
    ∀ (pages : List ChatPage) (n : Nat),
    (∀ p ∈ pages, p.chats.length ≤ L) → n < chatCap maxChats →
    n + (handedChats maxChats pages n).length < chatCap maxChats + L := by
  intro pages
  induction pages with
  | nil => intro n _ hn; simpa [handedChats] using by omega
  | cons p rest ih =>
    intro n hp hn
    have hpl : p.chats.length ≤ L := hp p (List.mem_cons_self _ _)
    unfold handedChats
    by_cases hg : p.nextCursor.isSome ∧ n + p.chats.length < chatCap maxChats
    · rw [if_pos (by simp [hg.1, hg.2])]
      have := ih (n + p.chats.length) (fun q hq => hp q (List.mem_cons_of_mem _ hq)) hg.2
      simp only [List.length_append]
      omega
    · rw [if_neg ?_]
      · simp only [List.length_append, List.length_nil]
        omega
      · intro hcon
        simp only [Bool.and_eq_true, decide_eq_true_eq] at hcon
        exact hg ⟨hcon.1, hcon.2⟩

theorem foldl_chatStep_allfail_writes (fmt : ChatFileFormat) (folder : String) :
    ∀ (cs : List Chat) (st : ChatSyncState),
    (cs.foldl (chatStep (fun _ => true) fmt folder) st).writes = st.writes := by
  intro cs
  induction cs with
  | nil => intro st; rfl
  | cons c t ih =>
    intro st
    rw [List.foldl_cons, ih]
    simp [chatStep, processChatFile]

/-! ### Lemmas for the chat-sync idempotence analysis -/

theorem processChatFile_read_self (fmt : ChatFileFormat) (folder : String)
    (store : Store) (c : Chat) :
    readStore (processChatFile (fun _ => false) fmt folder store c).1
      (getChatFilePath fmt folder c) = some (formatChatMarkdown c) := by
  unfold processChatFile
  rw [if_neg (by simp)]
  cases hr : readStore store (getChatFilePath fmt folder c) with
  | none => simp [readStore_writeStore]
  | some existing =>
    by_cases he : existing = formatChatMarkdown c
    · simp [he, hr]
    · simp [he, readStore_writeStore]

theorem processChatFile_read_other (fail : Chat → Bool) (fmt : ChatFileFormat)
    (folder : String) (store : Store) (c : Chat) (q : String)
    (hq : q ≠ getChatFilePath fmt folder c) :
    readStore (processChatFile fail fmt folder store c).1 q = readStore store q := by
  unfold processChatFile
  by_cases hf : fail c
  · simp [hf]
  · rw [if_neg (by simp [hf])]
    cases hr : readStore store (getChatFilePath fmt folder c) with
    | none => simp [readStore_writeStore, hq]
    | some existing =>
      by_cases he : existing = formatChatMarkdown c
      · simp [he]
      · simp [he, readStore_writeStore, hq]

theorem foldl_chatStep_read_preserve (fail : Chat → Bool) (fmt : ChatFileFormat)
    (folder : String) : ∀ (cs : List Chat) (st : ChatSyncState) (q : String),
    (∀ c ∈ cs, q ≠ getChatFilePath fmt folder c) →
    readStore ((cs.foldl (chatStep fail fmt folder) st).store) q =
      readStore st.store q := by
  intro cs
  induction cs with
  | nil => intro st q _; rfl
  | cons c t ih =>
    intro st q hq
    rw [List.foldl_cons, ih _ _ (fun x hx => hq x (List.mem_cons_of_mem _ hx))]
    exact processChatFile_read_other fail fmt folder st.store c q
      (hq c (List.mem_cons_self _ _))

theorem foldl_chatStep_read_final (fmt : ChatFileFormat) (folder : String) :
    ∀ (cs : List Chat) (st : ChatSyncState),
    List.Pairwise (fun a b =>
      getChatFilePath fmt folder a ≠ getChatFilePath fmt folder b) cs →
    ∀ c ∈ cs,
    readStore ((cs.foldl (chatStep (fun _ => false) fmt folder) st).store)
      (getChatFilePath fmt folder c) = some (formatChatMarkdown c) := by
  intro cs
  induction cs with
  | nil => intro st _ c hc; simp at hc
  | cons a t ih =>
    intro st hpw c hc
    have hpw1 := (List.pairwise_cons.mp hpw).1
    have hpw2 := (List.pairwise_cons.mp hpw).2
    rcases List.mem_cons.mp hc with h | h
    · subst h
      rw [List.foldl_cons]
      have hpre := foldl_chatStep_read_preserve (fun _ => false) fmt folder t
        (chatStep (fun _ => false) fmt folder st c) (getChatFilePath fmt folder c)
        hpw1
      rw [hpre]
      exact processChatFile_read_self fmt folder st.store c
    · rw [List.foldl_cons]
      exact ih _ hpw2 c h

theorem foldl_chatStep_no_writes (fmt : ChatFileFormat) (folder : String) :
    ∀ (cs : List Chat) (st : ChatSyncState),
    (∀ c ∈ cs, readStore st.store (getChatFilePath fmt folder c) =
      some (formatChatMarkdown c)) →
    (cs.foldl (chatStep (fun _ => false) fmt folder) st).writes = st.writes ∧
    (cs.foldl (chatStep (fun _ => false) fmt folder) st).store = st.store := by
  intro cs
  induction cs with
  | nil => intro st _; exact ⟨rfl, rfl⟩
  | cons a t ih =>
    intro st hs
    have ha := hs a (List.mem_cons_self _ _)
    have hstep : chatStep (fun _ => false) fmt folder st a =
        ⟨st.store, st.processed + 1, st.writes⟩ := by
      unfold chatStep processChatFile
      simp [ha]
    rw [List.foldl_cons, hstep]
    have := ih ⟨st.store, st.processed + 1, st.writes⟩
      (fun c hc => hs c (List.mem_cons_of_mem _ hc))
    exact this

/-! ### Lemmas about the retry loop -/

theorem runRequest_non429 (dateDelay : String → Int) :
    ∀ (pre : List Outcome) (k : Nat) (bad : Outcome) (rest : List Outcome),
    (∀ o ∈ pre, is429 o = true) → k + pre.length ≤ 5 →
    nonRetryable bad = true →
    runRequest dateDelay (pre ++ bad :: rest) k =
      some (.error (failResult bad), preDelays dateDelay k pre) := by
  intro pre
  induction pre with
  | nil =>
    intro k bad rest _ _ hbad
    cases bad with
    | success validJson =>
      cases validJson with
      | false => rfl
      | true => simp [nonRetryable] at hbad
    | failure st ra =>
      simp only [nonRetryable, Bool.not_eq_true', beq_eq_false_iff_ne, ne_eq] at hbad
      simp only [List.nil_append, runRequest, preDelays]
      rw [if_neg (by intro hcon; exact hbad hcon.1)]
      rfl
  | cons o pre ih =>
    intro k bad rest hpre hk hbad
    have ho := hpre o (List.mem_cons_self _ _)
    cases o with
    | success v => simp [is429] at ho
    | failure st ra =>
      have hst : st = some 429 := by
        cases st with
        | none => simp [is429] at ho
        | some s => simp only [is429, beq_iff_eq] at ho; rw [ho]
      subst hst
      have hklt : k < 5 := by
        simp only [List.length_cons] at hk; omega
      simp only [List.cons_append, runRequest, List.append_eq, eq_self_iff_true,
        true_and]
      rw [if_pos hklt]
      rw [ih (k + 1) bad rest (fun x hx => hpre x (List.mem_cons_of_mem _ hx))
        (by simp only [List.length_cons] at hk; omega) hbad]
      rfl

/-! ### Frame lemma for the lifelog date walk -/

theorem syncLifelogsFold_frame (fetch : Date → List Lifelog) (folder : String)
    (P : String) : ∀ (dates : List Date) (acc : Store × List (String × String)),
    (∀ dt ∈ dates, fetch dt ≠ [] → lifelogFilePath folder dt ≠ P) →
    readStore (dates.foldl (lifelogStep fetch folder) acc).1 P =
      readStore acc.1 P ∧
    (∀ e ∈ (dates.foldl (lifelogStep fetch folder) acc).2,
      e ∈ acc.2 ∨ e.1 ≠ P) := by
  intro dates
  induction dates with
  | nil => intro acc _; exact ⟨rfl, fun e he => Or.inl he⟩
  | cons dt rest ih =>
    intro acc hd
    rw [List.foldl_cons]
    by_cases hf : (fetch dt).length > 0
    · have hne : fetch dt ≠ [] := by
        intro hcon; rw [hcon] at hf; simp at hf
      have hp : lifelogFilePath folder dt ≠ P :=
        hd dt (List.mem_cons_self _ _) hne
      have hstep : lifelogStep fetch folder acc dt =
          (writeStore acc.1 (lifelogFilePath folder dt)
            (String.intercalate "\n\n" ((fetch dt).map formatLifelogMarkdown)),
           acc.2 ++ [(lifelogFilePath folder dt,
            String.intercalate "\n\n" ((fetch dt).map formatLifelogMarkdown))]) := by
        unfold lifelogStep
        rw [if_pos hf]
      rw [hstep]
      have hrest := ih
        (writeStore acc.1 (lifelogFilePath folder dt)
          (String.intercalate "\n\n" ((fetch dt).map formatLifelogMarkdown)),
         acc.2 ++ [(lifelogFilePath folder dt,
          String.intercalate "\n\n" ((fetch dt).map formatLifelogMarkdown))])
        (fun x hx hfx => hd x (List.mem_cons_of_mem _ hx) hfx)
      refine ⟨hrest.1.trans ?_, fun e he => ?_⟩
      · simp only [readStore_writeStore]
        rw [if_neg (fun hcon => hp hcon.symm)]
      · rcases hrest.2 e he with h | h
        · simp only [List.mem_append, List.mem_singleton] at h
          rcases h with h | h
          · exact Or.inl h
          · right; rw [h]; exact hp
        · exact Or.inr h
    · have hstep : lifelogStep fetch folder acc dt = acc := by
        unfold lifelogStep
        rw [if_neg hf]
      rw [hstep]
      exact ih acc (fun x hx hfx => hd x (List.mem_cons_of_mem _ hx) hfx)

/-! ### The most recent synced date is one of the parsed dates -/

theorem getLastSyncedDate_mem (basenames : List String) (m : Date)
    (h : getLastSyncedDate basenames = some m) :
    m ∈ (basenames.filter isDateBasename).map parseDate := by
  unfold getLastSyncedDate at h
  generalize hl : (basenames.filter isDateBasename).map parseDate = l at h
  have key : ∀ (l2 : List Date) (acc : Option Date),
      (∀ x, acc = some x → x ∈ l) → (∀ x ∈ l2, x ∈ l) →
      l2.foldl
        (fun acc d =>
          match acc with
          | none => some d
          | some mm => some (if dateLeB mm d then d else mm)) acc = some m →
      m ∈ l := by
    intro l2
    induction l2 with
    | nil => intro acc hacc _ hfold; exact hacc m hfold
    | cons x t ihl =>
      intro acc hacc hsub hfold
      rw [List.foldl_cons] at hfold
      refine ihl _ ?_ (fun z hz => hsub z (List.mem_cons_of_mem _ hz)) hfold
      intro z hzeq
      cases acc with
      | none =>
        simp only at hzeq
        cases hzeq
        exact hsub x (List.mem_cons_self _ _)
      | some mm =>
        simp only at hzeq
        cases hzeq
        by_cases hle : dateLeB mm x
        · rw [if_pos hle]; exact hsub x (List.mem_cons_self _ _)
        · rw [if_neg hle]; exact hacc mm rfl
  exact key l none (by intro x hx; cases hx) (fun x hx => hx) h

/-! ## Claim C1: the chat-count cap -/

/-- A minimal chat used in the C1 service trace. -/
def c1Chat : Chat :=
  { id := "aaa", summary := none, createdAt := ⟨2025, 2, 9, 1, 0, 0⟩,
    startedAt := ⟨2025, 2, 9, 1, 0, 0⟩, messages := [], visibility := "private" }

/-- A C1 service trace with `maxChatsPerSync = 50`: a 49-chat page carrying a
next cursor, then a 50-chat page; both respect the requested page limit
`min(50, 100) = 50`. -/
def c1Pages : List ChatPage :=
  [⟨List.replicate 49 c1Chat, some "cursor1"⟩,
   ⟨List.replicate 50 c1Chat, none⟩]

/-- C1 is false: with `maxChatsPerSync = 50` and service pages that respect
the requested page limit, `syncChats` hands 99 chats to `processChatFile`,
exceeding `clamp(50, 1, 200) = 50` — the loop checks the cap only between
pages and applies no clamping. -/
theorem C1_chat_cap_counterexample :
    c1Pages.all (fun p => p.chats.length ≤ chatPageLimit 50) = true ∧
    (syncChats (fun _ => false) ChatFileFormat.perChat "Limitless Chats" 50
      c1Pages emptyStore).processed = 99 ∧
    ¬ (99 ≤ clamp 50 1 200) := by
  refine ⟨by decide, ?_, by decide⟩
  rw [syncChats_processed]
  decide

/-- C1 (amended): `processedChats` is not clamped to `[1, 200]`; instead,
when every page returned by the service has at most the requested
`min(maxChatsPerSync || 50, 100)` chats, the total handed to
`processChatFile` stays strictly below
`(maxChatsPerSync || 200) + min(maxChatsPerSync || 50, 100)` — the cap is
checked only between pages, so it can be overshot by up to one page. -/
theorem C1_chat_cap_amended (fail : Chat → Bool) (fmt : ChatFileFormat)
    (folder : String) (maxChats : Nat) (pages : List ChatPage) (store : Store)
    (hpages : ∀ p ∈ pages, p.chats.length ≤ chatPageLimit maxChats) :
    (syncChats fail fmt folder maxChats pages store).processed <
      chatCap maxChats + chatPageLimit maxChats := by
  rw [syncChats_processed]
  have h := handedChats_length_lt maxChats (chatPageLimit maxChats) pages 0
    hpages (chatCap_pos maxChats)
  omega

/-- Witness for C1 (amended) at the concrete C1 trace. -/
theorem C1_chat_cap_witness :
    (syncChats (fun _ => false) ChatFileFormat.perChat "Limitless Chats" 50
      c1Pages emptyStore).processed < chatCap 50 + chatPageLimit 50 :=
  C1_chat_cap_amended (fun _ => false) ChatFileFormat.perChat "Limitless Chats"
    50 c1Pages emptyStore (by decide)

/-! ## Claim C2: lifelog resumability -/

/-- Basenames of the lifelog files already present in the C2 store. -/
def c2Basenames : List String := ["2025-02-09", "2025-02-10"]

/-- C2 is false: with files for 2025-02-09 and 2025-02-10 present, the walk
starts at the most recent date 2025-02-10 itself — a date `≤ max(D1..Dk)` is
passed to `getLifelogs` (`startDate = lastSyncedDate`, not the day after). -/
theorem C2_resumability_counterexample :
    getLastSyncedDate c2Basenames = some ⟨2025, 2, 10⟩ ∧
    (⟨2025, 2, 10⟩ : Date) ∈
      lifelogFetchDates c2Basenames ⟨2025, 2, 9⟩ ⟨2025, 2, 12⟩ ∧
    dateLeB ⟨2025, 2, 10⟩ ⟨2025, 2, 10⟩ = true := by
  refine ⟨by decide, by decide, by decide⟩

/-- C2 (amended): a subsequent sync starts fetching at `max(D1..Dk)`
inclusive: no date strictly before the most recent synced date is passed to
`getLifelogs`, and the most recent date itself is re-fetched (whenever it is
not after the end date). -/
theorem C2_resumability_amended (basenames : List String)
    (defaultStart endD m : Date)
    (hvalid : ∀ s ∈ basenames.filter isDateBasename,
      validDate (parseDate s) = true)
    (hm : getLastSyncedDate basenames = some m) :
    (∀ dt ∈ lifelogFetchDates basenames defaultStart endD,
      dateLeB m dt = true) ∧
    (validDate endD = true → dateLeB m endD = true →
      m ∈ lifelogFetchDates basenames defaultStart endD) := by
  have hstart : lifelogStartDate basenames defaultStart = m := by
    unfold lifelogStartDate
    rw [hm]
    rfl
  constructor
  · intro dt hdt
    unfold lifelogFetchDates at hdt
    rw [hstart] at hdt
    exact mem_walkDatesAux_ge _ _ _ _ hdt
  · intro hvE hle
    have hmem := getLastSyncedDate_mem basenames m hm
    have hvm : validDate m = true := by
      rcases List.mem_map.mp hmem with ⟨s, hs, hparse⟩
      rw [← hparse]
      exact hvalid s hs
    unfold lifelogFetchDates
    rw [hstart]
    exact self_mem_walkDates hvm hvE hle

/-- Witness for C2 (amended) at the concrete C2 store. -/
theorem C2_resumability_witness :
    (⟨2025, 2, 10⟩ : Date) ∈
      lifelogFetchDates c2Basenames ⟨2025, 2, 9⟩ ⟨2025, 2, 12⟩ :=
  (C2_resumability_amended c2Basenames ⟨2025, 2, 9⟩ ⟨2025, 2, 12⟩ ⟨2025, 2, 10⟩
    (by decide) (by decide)).2 (by decide) (by decide)

/-! ## Claim C3: backoff computation -/

/-- C3: for a 429 carrying `retry-after: 3` the delay is exactly 3000 ms
(whatever the retry counter and the ambient clock); with no header the Nth
0-indexed retry waits `1000 * 2^N` ms; and a run of six 429 responses
performs exactly the five backoff waits 1000, 2000, 4000, 8000, 16000 ms and
then surfaces the 429 error to the caller. -/
theorem C3_backoff_correct :
    (∀ (dateDelay : String → Int) (n : Nat),
      computeDelay dateDelay n (some "3") = 3000) ∧
    (∀ (dateDelay : String → Int) (n : Nat),
      computeDelay dateDelay n none = 1000 * 2 ^ n) ∧
    (∀ dateDelay : String → Int,
      makeRequest dateDelay
        (List.replicate 6 (Outcome.failure (some 429) none)) =
      some (.error (.httpError (some 429)), [1000, 2000, 4000, 8000, 16000])) := by
  refine ⟨fun dateDelay n => rfl, fun dateDelay n => rfl, fun dateDelay => rfl⟩

/-! ## Claim C4: chat-sync idempotence -/

/-- First chat of the C4 trace (created 2025-02-09). -/
def c4ChatA : Chat :=
  { id := "aaa", summary := none, createdAt := ⟨2025, 2, 9, 1, 0, 0⟩,
    startedAt := ⟨2025, 2, 9, 1, 0, 0⟩, messages := [], visibility := "private" }

/-- Second chat of the C4 trace (same calendar day, different id). -/
def c4ChatB : Chat :=
  { id := "bbb", summary := none, createdAt := ⟨2025, 2, 9, 2, 0, 0⟩,
    startedAt := ⟨2025, 2, 9, 2, 0, 0⟩, messages := [], visibility := "private" }

/-- One-page C4 service trace containing both chats. -/
def c4Pages : List ChatPage := [⟨[c4ChatA, c4ChatB], none⟩]

/-- C4 is false as stated: under the daily layout both chats target the same
file, each run writes that file twice (A, then B over it), so the second run
over the same remote data still performs 2 writes, not 0. -/
theorem C4_idempotence_counterexample :
    (getChatFilePath ChatFileFormat.daily "F" c4ChatA =
      getChatFilePath ChatFileFormat.daily "F" c4ChatB) ∧
    (syncChats (fun _ => false) ChatFileFormat.daily "F" 50 c4Pages
      (syncChats (fun _ => false) ChatFileFormat.daily "F" 50 c4Pages
        emptyStore).store).writes = 2 := by
  refine ⟨by decide, by decide⟩

/-- C4 (amended): `processChatFile` writes only when the rendered text
differs from the stored text, and the "second run performs zero writes"
consequence holds whenever the chats processed in one sync have pairwise
distinct target paths (as in the per-chat layout); with a shared target path
(daily/monthly layouts) it can fail. -/
theorem C4_idempotence_amended (fmt : ChatFileFormat) (folder : String)
    (maxChats : Nat) (pages : List ChatPage) (store : Store) :
    (∀ (fail : Chat → Bool) (st : Store) (c : Chat),
      (processChatFile fail fmt folder st c).2 = true →
      readStore st (getChatFilePath fmt folder c) ≠
        some (formatChatMarkdown c)) ∧
    (List.Pairwise (fun a b =>
        getChatFilePath fmt folder a ≠ getChatFilePath fmt folder b)
        (handedChats maxChats pages 0) →
      (syncChats (fun _ => false) fmt folder maxChats pages
        (syncChats (fun _ => false) fmt folder maxChats pages store).store).writes
        = 0) := by
  constructor
  · intro fail st c hw hcon
    unfold processChatFile at hw
    by_cases hf : fail c = true
    · rw [if_pos hf] at hw
      simp at hw
    · rw [if_neg hf, hcon] at hw
      simp at hw
  · intro hpw
    have h1 : (syncChats (fun _ => false) fmt folder maxChats pages store).store =
        ((handedChats maxChats pages 0).foldl
          (chatStep (fun _ => false) fmt folder)
          ⟨store, 0, 0⟩).store := by
      unfold syncChats
      rw [syncChatsGo_eq_foldl]
    have hfinal := foldl_chatStep_read_final fmt folder
      (handedChats maxChats pages 0) ⟨store, 0, 0⟩ hpw
    unfold syncChats
    rw [syncChatsGo_eq_foldl]
    have hnw := foldl_chatStep_no_writes fmt folder (handedChats maxChats pages 0)
      ⟨(syncChats (fun _ => false) fmt folder maxChats pages store).store, 0, 0⟩
      (fun c hc => by
        show readStore
          (syncChats (fun _ => false) fmt folder maxChats pages store).store
          (getChatFilePath fmt folder c) = some (formatChatMarkdown c)
        rw [h1]
        exact hfinal c hc)
    exact hnw.1

/-- Witness for C4 (amended): under the per-chat layout the two C4 chats
have distinct paths and the second run indeed performs zero writes. -/
theorem C4_idempotence_witness :
    (syncChats (fun _ => false) ChatFileFormat.perChat "F" 50 c4Pages
      (syncChats (fun _ => false) ChatFileFormat.perChat "F" 50 c4Pages
        emptyStore).store).writes = 0 :=
  (C4_idempotence_amended ChatFileFormat.perChat "F" 50 c4Pages emptyStore).2
    (by decide)

/-! ## Claim C5: the literal renderer example -/

/-- The lifelog of the specification's literal renderer example. -/
def c5Lifelog : Lifelog :=
  { markdown := none, title := none,
    contents := some [ContentNode.heading2 "Meeting",
      ContentNode.blockquote "Hello" (some "Alice")
        (some ⟨2025, 2, 9, 10, 0, 0⟩)] }

/-- C5 is false as stated: the rendered document never contains the claimed
line `- Alice (02/09/25 10:00 AM): Hello` — the en-US `toLocaleString` with
these options separates date and time with a comma. -/
theorem C5_renderer_example_counterexample :
    strContains (formatLifelogMarkdown c5Lifelog)
      "- Alice (02/09/25 10:00 AM): Hello" = false := by
  decide

/-- C5 (amended): the example renders to `## Meeting` followed (after the
flush's blank lines) by the line `- Alice (02/09/25, 10:00 AM): Hello`, with
a comma between date and time. -/
theorem C5_renderer_example_amended :
    formatLifelogMarkdown c5Lifelog =
      "## Meeting\n\n\n- Alice (02/09/25, 10:00 AM): Hello" ∧
    strContains (formatLifelogMarkdown c5Lifelog) "## Meeting" = true ∧
    strContains (formatLifelogMarkdown c5Lifelog)
      "- Alice (02/09/25, 10:00 AM): Hello" = true := by
  refine ⟨by decide, by decide, by decide⟩

/-! ## Claim C6: daily and monthly chat file paths -/

/-- A chat created on 2025-02-09, used to evaluate the path layouts. -/
def c6Chat : Chat :=
  { id := "abc", summary := some "S", createdAt := ⟨2025, 2, 9, 12, 0, 0⟩,
    startedAt := ⟨2025, 2, 9, 12, 0, 0⟩, messages := [], visibility := "private" }

/-- C6 is false as stated: the daily and monthly layouts separate the date
part from `Chats.md` with ` - ` (space, hyphen, space), not with a bare
hyphen. -/
theorem C6_chat_path_counterexample :
    getChatFilePath ChatFileFormat.daily "F" c6Chat =
      "F/2025-02-09 - Chats.md" ∧
    getChatFilePath ChatFileFormat.daily "F" c6Chat ≠
      "F/2025-02-09-Chats.md" ∧
    getChatFilePath ChatFileFormat.monthly "F" c6Chat =
      "F/2025-02 - Chats.md" ∧
    getChatFilePath ChatFileFormat.monthly "F" c6Chat ≠
      "F/2025-02-Chats.md" := by
  refine ⟨by decide, by decide, by decide, by decide⟩

/-- C6 (amended): for every chat the daily layout targets
`{folder}/{date} - Chats.md` with the ISO `YYYY-MM-DD` creation date and the
monthly layout targets `{folder}/{year}-{month} - Chats.md` with the
zero-padded month; chats sharing a creation date (resp. month) share the
target path. -/
theorem C6_chat_path_amended (folder : String) (chat chat2 : Chat) :
    getChatFilePath ChatFileFormat.daily folder chat =
      folder ++ "/" ++ dateStr chat.createdAt.toDate ++ " - Chats.md" ∧
    getChatFilePath ChatFileFormat.monthly folder chat =
      folder ++ "/" ++ Nat.repr chat.createdAt.y ++ "-" ++
        pad2 chat.createdAt.m ++ " - Chats.md" ∧
    (chat.createdAt.toDate = chat2.createdAt.toDate →
      getChatFilePath ChatFileFormat.daily folder chat =
        getChatFilePath ChatFileFormat.daily folder chat2) ∧
    (chat.createdAt.y = chat2.createdAt.y →
      chat.createdAt.m = chat2.createdAt.m →
      getChatFilePath ChatFileFormat.monthly folder chat =
        getChatFilePath ChatFileFormat.monthly folder chat2) := by
  refine ⟨rfl, rfl, fun h => ?_, fun h1 h2 => ?_⟩
  · unfold getChatFilePath
    rw [h]
  · unfold getChatFilePath
    rw [h1, h2]

/-- A second chat created later on the same day as `c6Chat`. -/
def c6Chat2 : Chat :=
  { id := "zzz", summary := some "T", createdAt := ⟨2025, 2, 9, 20, 30, 0⟩,
    startedAt := ⟨2025, 2, 9, 20, 30, 0⟩, messages := [], visibility := "public" }

/-- Witness for C6 (amended): two chats of the same day share the daily
path. -/
theorem C6_chat_path_witness :
    getChatFilePath ChatFileFormat.daily "F" c6Chat =
      getChatFilePath ChatFileFormat.daily "F" c6Chat2 :=
  (C6_chat_path_amended "F" c6Chat c6Chat2).2.2.1 (by decide)

/-! ## Claim C7: empty lifelog dates leave the store untouched -/

/-- C7: for every date of the walk on which the service returns no lifelogs,
the sync issues no write to that date's `{folder}/{date}.md` path and the
content stored there is unchanged (stated for real calendar start dates and
four-digit years, where the date-to-filename map is injective). -/
theorem C7_empty_date_frame (fetch : Date → List Lifelog) (folder : String)
    (startD endD : Date) (store : Store) (dt : Date)
    (hstart : validDate startD = true) (hend : endD.y ≤ 9999)
    (hmem : dt ∈ walkDates startD endD) (hempty : fetch dt = []) :
    (∀ e ∈ (syncLifelogsRun fetch folder startD endD store).2,
      e.1 ≠ lifelogFilePath folder dt) ∧
    readStore (syncLifelogsRun fetch folder startD endD store).1
      (lifelogFilePath folder dt) =
      readStore store (lifelogFilePath folder dt) := by
  have hvd : validDate dt = true := mem_walkDatesAux_valid _ _ _ _ hstart hmem
  have hyd : dt.y ≤ 9999 :=
    le_trans (dateLeB_y_le (mem_walkDatesAux_le_end _ _ _ _ hmem)) hend
  have hbd : dt.m ≤ 99 ∧ dt.d ≤ 99 := by
    simp only [validDate, Bool.and_eq_true, decide_eq_true_eq] at hvd
    have := daysInMonth_le_31 dt.y dt.m
    omega
  have hguard : ∀ x ∈ walkDates startD endD, fetch x ≠ [] →
      lifelogFilePath folder x ≠ lifelogFilePath folder dt := by
    intro x hx hfx hcon
    have hvx : validDate x = true := mem_walkDatesAux_valid _ _ _ _ hstart hx
    have hyx : x.y ≤ 9999 :=
      le_trans (dateLeB_y_le (mem_walkDatesAux_le_end _ _ _ _ hx)) hend
    have hbx : x.m ≤ 99 ∧ x.d ≤ 99 := by
      simp only [validDate, Bool.and_eq_true, decide_eq_true_eq] at hvx
      have := daysInMonth_le_31 x.y x.m
      omega
    have heq : x = dt :=
      lifelogFilePath_inj hyx hbx.1 hbx.2 hyd hbd.1 hbd.2 hcon
    rw [heq] at hfx
    exact hfx hempty
  have hframe := syncLifelogsFold_frame fetch folder
    (lifelogFilePath folder dt) (walkDates startD endD) (store, []) hguard
  unfold syncLifelogsRun
  refine ⟨fun e he => ?_, hframe.1⟩
  rcases hframe.2 e he with h | h
  · simp at h
  · exact h

/-- Witness for C7 at a concrete two-day walk with an empty service. -/
theorem C7_empty_date_frame_witness :
    readStore (syncLifelogsRun (fun _ => []) "L" ⟨2025, 2, 9⟩ ⟨2025, 2, 10⟩
      emptyStore).1 (lifelogFilePath "L" ⟨2025, 2, 9⟩) =
    readStore emptyStore (lifelogFilePath "L" ⟨2025, 2, 9⟩) :=
  (C7_empty_date_frame (fun _ => []) "L" ⟨2025, 2, 9⟩ ⟨2025, 2, 10⟩ emptyStore
    ⟨2025, 2, 9⟩ (by decide) (by decide) (by decide) rfl).2

/-! ## Claim C8: section flushing in the lifelog renderer -/

/-- A lifelog opening section "A" with no buffered lines before section "B"
starts. -/
def c8Lifelog : Lifelog :=
  { markdown := none, title := none,
    contents := some [ContentNode.heading2 "A", ContentNode.heading2 "B",
      ContentNode.blockquote "hi" none none] }

/-- A lifelog whose two sections each buffer a blockquote line. -/
def c8PosLifelog : Lifelog :=
  { markdown := none, title := none,
    contents := some [ContentNode.heading2 "A",
      ContentNode.blockquote "x" none none, ContentNode.heading2 "B",
      ContentNode.blockquote "y" none none] }

/-- C8 is false as stated: a section that is open but has no buffered lines
when the next `heading2` arrives is dropped, its `## title` never appears in
the output. -/
theorem C8_section_flush_counterexample :
    strContains (formatLifelogMarkdown c8Lifelog) "## A" = false ∧
    formatLifelogMarkdown c8Lifelog = "## B\n\n\n- Speaker : hi" := by
  refine ⟨by decide, by decide⟩

/-- C8 (amended): both the in-loop flush on a `heading2` node and the
end-of-traversal flush emit `## title` followed by the buffered lines only
when the open section has a non-empty title and a non-empty buffer;
otherwise the open section is dropped.  When every opened section does
buffer a line, every `## title` appears, as on `c8PosLifelog`. -/
theorem C8_section_flush_amended (content : List String) (cur : String)
    (msgs : List String) (t : String) :
    renderNode ⟨content, cur, msgs⟩ (ContentNode.heading2 t) =
      ⟨content ++ (if cur ≠ "" ∧ msgs.length > 0 then
        ["## " ++ cur ++ "\n"] ++ msgs ++ [""] else []), t, []⟩ ∧
    finalizeRender ⟨content, cur, msgs⟩ =
      content ++ (if cur ≠ "" ∧ msgs.length > 0 then
        ["## " ++ cur ++ "\n"] ++ msgs else []) ∧
    strContains (formatLifelogMarkdown c8PosLifelog) "## A" = true ∧
    strContains (formatLifelogMarkdown c8PosLifelog) "## B" = true := by
  refine ⟨?_, ?_, by decide, by decide⟩
  · by_cases h : cur ≠ "" ∧ msgs.length > 0
    · simp [renderNode, h]
    · simp [renderNode, h]
  · by_cases h : cur ≠ "" ∧ msgs.length > 0
    · simp [finalizeRender, h]
    · simp [finalizeRender, h]

/-! ## Claim C9: non-429 failures are never retried -/

/-- C9: after any run of at most five retried 429s, an attempt that fails
with any non-429 outcome (network error without status, a non-429 HTTP
status, or a response body that is not JSON) surfaces immediately: the loop
performs no further attempt, adds no backoff delay for it, and returns the
corresponding error. -/
theorem C9_non429_no_retry (dateDelay : String → Int) (pre : List Outcome)
    (bad : Outcome) (rest : List Outcome)
    (hpre : ∀ o ∈ pre, is429 o = true) (hlen : pre.length ≤ 5)
    (hbad : nonRetryable bad = true) :
    makeRequest dateDelay (pre ++ bad :: rest) =
      some (.error (failResult bad), preDelays dateDelay 0 pre) :=
  runRequest_non429 dateDelay pre 0 bad rest hpre (by omega) hbad

/-- Witness for C9: one retried 429, then a 500 that propagates with only
the single 429 backoff delay recorded. -/
theorem C9_non429_no_retry_witness :
    makeRequest (fun _ => 0)
      ([Outcome.failure (some 429) none] ++
        Outcome.failure (some 500) none :: [Outcome.success true]) =
      some (.error (.httpError (some 500)), [1000]) :=
  C9_non429_no_retry (fun _ => 0) [Outcome.failure (some 429) none]
    (Outcome.failure (some 500) none) [Outcome.success true]
    (by decide) (by decide) (by decide)

/-! ## Claim C10: the processed count is failure-independent -/

/-- C10: the `processedChats` total reported by `syncChats` equals the
number of chats handed to `processChatFile` by the pagination loop, whatever
the per-chat failure behaviour (the `catch` inside `processChatFile` keeps
failures from reaching the loop); in particular a sync in which every
per-chat processing step fails writes no file at all yet still reports the
full count. -/
theorem C10_processed_count_total (fail : Chat → Bool) (fmt : ChatFileFormat)
    (folder : String) (maxChats : Nat) (pages : List ChatPage) (store : Store) :
    (syncChats fail fmt folder maxChats pages store).processed =
      (handedChats maxChats pages 0).length ∧
    (syncChats (fun _ => true) fmt folder maxChats pages store).writes = 0 ∧
    (syncChats (fun _ => true) fmt folder maxChats pages store).processed =
      (handedChats maxChats pages 0).length := by
  refine ⟨syncChats_processed fail fmt folder maxChats pages store, ?_,
    syncChats_processed (fun _ => true) fmt folder maxChats pages store⟩
  unfold syncChats
  rw [syncChatsGo_eq_foldl]
  exact foldl_chatStep_allfail_writes fmt folder _ ⟨store, 0, 0⟩

end Limitless
